import Mathlib

/-!
Verification of the MP/M II emulator XIOS layer (trap dispatcher, handlers,
bootstrap BDOS emulator) and the ConsoleQueue, as a shallow embedding of
`src/xios.cpp` and the `ConsoleQueue` template from `console_queue.h`.

Machine words are modelled as `Nat` with explicit `% 2^8` / `% 2^16`
reductions where the C++ code truncates to `uint8_t` / `uint16_t`.
External collaborators excluded from the core (the Console class backing
each console index, and the DiskSystem engine) are modelled abstractly:
their accept/reject and result behaviour is an oracle carried in the
state, and the disk engine records the parameters presented to it.
-/

namespace MPM2

/-- XIOS jump-table entry offsets (3 bytes per slot), from the jump table
    in `xios.asm` / `xios.h`. -/
def XIOS_BOOT : Nat := 0x00

def XIOS_WBOOT : Nat := 0x03

def XIOS_CONST : Nat := 0x06

def XIOS_CONIN : Nat := 0x09

def XIOS_CONOUT : Nat := 0x0C

def XIOS_LIST : Nat := 0x0F

def XIOS_PUNCH : Nat := 0x12

def XIOS_READER : Nat := 0x15

def XIOS_HOME : Nat := 0x18

def XIOS_SELDSK : Nat := 0x1B

def XIOS_SETTRK : Nat := 0x1E

def XIOS_SETSEC : Nat := 0x21

def XIOS_SETDMA : Nat := 0x24

def XIOS_READ : Nat := 0x27

def XIOS_WRITE : Nat := 0x2A

def XIOS_LISTST : Nat := 0x2D

def XIOS_SECTRAN : Nat := 0x30

def XIOS_SELMEMORY : Nat := 0x33

def XIOS_POLLDEVICE : Nat := 0x36

def XIOS_STARTCLOCK : Nat := 0x39

def XIOS_STOPCLOCK : Nat := 0x3C

def XIOS_EXITREGION : Nat := 0x3F

def XIOS_MAXCONSOLE : Nat := 0x42

def XIOS_SYSTEMINIT : Nat := 0x45

def XIOS_IDLE : Nat := 0x48

/-- Number of consoles (`nmbcns equ 8` in the BNKXIOS source). -/
def MAX_CONSOLES : Nat := 8

/-- CPU registers visible to the XIOS (qkz80 collaborator): A = high byte
    of AF, the 16-bit pairs BC, DE, HL, plus SP, PC and both
    interrupt-enable flip-flops. Values are stored masked to their width
    by the setters below. -/
structure Regs where
  a : Nat
  bc : Nat
  de : Nat
  hl : Nat
  sp : Nat
  pc : Nat
  iff1 : Nat
  iff2 : Nat
deriving Repr, DecidableEq

/-- `get_low` of a 16-bit pair. -/
def lowByte (x : Nat) : Nat := x % 256

/-- `get_high` of a 16-bit pair. -/
def highByte (x : Nat) : Nat := x / 256 % 256

/-- `get_pair16`. -/
def pair16 (x : Nat) : Nat := x % 65536

/-- One host-side console backing a console index: an input stream the
    guest reads from and an output sink the guest writes to.
    Modelled from the spec: the Console class itself is an external
    collaborator (its source is not part of the core); `read_char`
    returns the next queued byte and the EOF sentinel 0x1A when empty,
    `write_char` appends, `const_status` is nonzero iff a byte is ready. -/
structure ConsoleSt where
  inbuf : List Nat
  outbuf : List Nat
deriving Repr, DecidableEq

/-- Modelled from the spec: console status, nonzero = character ready. -/
def const_status (c : ConsoleSt) : Nat :=
  if c.inbuf.isEmpty then 0x00 else 0xFF

/-- Modelled from the spec: non-blocking read, EOF sentinel when empty. -/
def read_char (c : ConsoleSt) : Nat × ConsoleSt :=
  match c.inbuf with
  | [] => (0x1A, c)
  | x :: xs => (x, { c with inbuf := xs })

/-- Modelled from the spec: append a byte to the console output. -/
def write_char (c : ConsoleSt) (ch : Nat) : ConsoleSt :=
  { c with outbuf := c.outbuf ++ [ch] }

/-- The external DiskSystem engine, modelled abstractly through its
    interface (`select → success/failure`, `set_track/set_sector/set_dma`,
    `read/write → status`): `accept` is the oracle deciding which disk
    numbers `select` accepts, `read_result`/`write_result` give the status
    code of a transfer as a function of the presented track/sector/dma,
    and `last_read_args`/`last_write_args` record the parameters latched
    in the engine at the moment its transfer was last invoked. -/
structure DiskSys where
  accept : Nat → Bool
  read_result : Nat → Nat → Nat → Nat
  write_result : Nat → Nat → Nat → Nat
  selected : Nat
  track : Nat
  sector : Nat
  dma : Nat
  last_read_args : Option (Nat × Nat × Nat)
  last_write_args : Option (Nat × Nat × Nat)

/-- `DiskSystem::select`: returns success/failure per the oracle and, on
    success, latches the selection. -/
def dsSelect (ds : DiskSys) (d : Nat) : Bool × DiskSys :=
  (ds.accept d, if ds.accept d then { ds with selected := d } else ds)

/-- The whole world the XIOS touches: CPU registers, guest memory (a byte
    per address, read-only to the handlers), the selected memory bank,
    the console registry (`ConsoleManager`), the disk engine, and the
    XIOS object's own fields from the constructor in `xios.cpp`. -/
structure World where
  regs : Regs
  mem : Nat → Nat
  bank : Nat
  consoles : Nat → Option ConsoleSt
  disk : DiskSys
  xios_base : Nat
  ldrbios_base : Nat
  bdos_stub : Nat
  current_disk : Nat
  current_track : Nat
  current_sector : Nat
  dma_addr : Nat
  tick_enabled : Bool
  preempted : Bool

/-- `BankedMemory::fetch_mem`: a byte fetch at a 16-bit address. -/
def fetch_mem (w : World) (a : Nat) : Nat := w.mem (a % 65536) % 256

/-- `XIOS::is_xios_call` from `xios.cpp`: the XIOS window is checked
    first and decides the answer for any pc inside it; otherwise the
    LDRBIOS window is checked; the loader's internal BDOS entry is not
    intercepted. -/
def is_xios_call (w : World) (pc : Nat) : Bool :=
  if w.xios_base ≤ pc ∧ pc < w.xios_base + 0x100 then
    decide (pc - w.xios_base ≤ XIOS_IDLE ∧ (pc - w.xios_base) % 3 = 0)
  else if w.ldrbios_base ≤ pc ∧ pc < w.ldrbios_base + 0x100 then
    decide (pc - w.ldrbios_base ≤ XIOS_SECTRAN ∧ (pc - w.ldrbios_base) % 3 = 0)
  else
    false

/-- `XIOS::do_ret`: pop a little-endian return address from the guest
    stack, advance SP by 2, and jump there. -/
def do_ret (w : World) : World :=
  let sp := w.regs.sp
  let lo := fetch_mem w sp
  let hi := fetch_mem w (sp + 1)
  { w with regs := { w.regs with sp := (sp + 2) % 65536, pc := (hi * 256 + lo) % 65536 } }

/-- Replace the console registered at index `i`. -/
def setConsole (w : World) (i : Nat) (c : ConsoleSt) : World :=
  { w with consoles := fun j => if j = i then some c else w.consoles j }

def do_boot (w : World) : World := do_ret w

def do_wboot (w : World) : World := do_ret w

/-- `XIOS::do_const`: D = console number; A = status, 0 if absent. -/
def do_const (w : World) : World :=
  match w.consoles (highByte w.regs.de) with
  | some con => do_ret { w with regs := { w.regs with a := const_status con } }
  | none => do_ret { w with regs := { w.regs with a := 0x00 } }

/-- `XIOS::do_conin`: D = console number; A = character, EOF if absent. -/
def do_conin (w : World) : World :=
  match w.consoles (highByte w.regs.de) with
  | some con =>
      do_ret { (setConsole w (highByte w.regs.de) (read_char con).2) with
               regs := { w.regs with a := (read_char con).1 % 256 } }
  | none => do_ret { w with regs := { w.regs with a := 0x1A } }

/-- `XIOS::do_conout`: console 0 during boot (pc below the XIOS base),
    else D = console number; C = character. -/
def do_conout (w : World) : World :=
  match w.consoles (if w.xios_base ≤ pair16 w.regs.pc then highByte w.regs.de else 0) with
  | some con =>
      do_ret (setConsole w (if w.xios_base ≤ pair16 w.regs.pc then highByte w.regs.de else 0)
        (write_char con (lowByte w.regs.bc)))
  | none => do_ret w

def do_list (w : World) : World := do_ret w

def do_punch (w : World) : World := do_ret w

/-- `XIOS::do_reader`: reader returns EOF. -/
def do_reader (w : World) : World :=
  do_ret { w with regs := { w.regs with a := 0x1A } }

/-- `XIOS::do_listst`: list status, always ready. -/
def do_listst (w : World) : World :=
  do_ret { w with regs := { w.regs with a := 0xFF } }

/-- `XIOS::do_home`: latched track reset to 0. -/
def do_home (w : World) : World :=
  do_ret { w with current_track := 0 }

/-- `XIOS::do_seldsk`: C = disk number; on rejection HL = 0 and
    `current_disk` is untouched; on success latch the disk and return the
    DPH address `xios_base + 0x100 + 16*disk` truncated to 16 bits. -/
def do_seldsk (w : World) : World :=
  if !(dsSelect w.disk (lowByte w.regs.bc)).1 then
    do_ret { w with disk := (dsSelect w.disk (lowByte w.regs.bc)).2,
                    regs := { w.regs with hl := 0x0000 } }
  else
    do_ret { w with disk := (dsSelect w.disk (lowByte w.regs.bc)).2,
                    current_disk := lowByte w.regs.bc,
                    regs := { w.regs with
                      hl := (w.xios_base + 0x100 + lowByte w.regs.bc * 16) % 65536 } }

/-- `XIOS::do_settrk`: BC = track number. -/
def do_settrk (w : World) : World :=
  do_ret { w with current_track := pair16 w.regs.bc }

/-- `XIOS::do_setsec`: BC = sector number. -/
def do_setsec (w : World) : World :=
  do_ret { w with current_sector := pair16 w.regs.bc }

/-- `XIOS::do_setdma`: BC = DMA address. -/
def do_setdma (w : World) : World :=
  do_ret { w with dma_addr := pair16 w.regs.bc }

/-- `XIOS::do_read`: push the latched track/sector/dma into the disk
    engine, invoke its transfer, surface the status code in A. -/
def do_read (w : World) : World :=
  let t := w.current_track
  let s := w.current_sector
  let d := w.dma_addr
  let result := w.disk.read_result t s d
  let ds := { w.disk with track := t, sector := s, dma := d,
                          last_read_args := some (t, s, d) }
  do_ret { w with disk := ds, regs := { w.regs with a := result % 256 } }

/-- `XIOS::do_write`: same staging as read, then the engine's write. -/
def do_write (w : World) : World :=
  let t := w.current_track
  let s := w.current_sector
  let d := w.dma_addr
  let result := w.disk.write_result t s d
  let ds := { w.disk with track := t, sector := s, dma := d,
                          last_write_args := some (t, s, d) }
  do_ret { w with disk := ds, regs := { w.regs with a := result % 256 } }

/-- `XIOS::do_sectran`: identity translation, HL = BC. -/
def do_sectran (w : World) : World :=
  do_ret { w with regs := { w.regs with hl := pair16 w.regs.bc } }

/-- `XIOS::do_selmemory`: BC points at a 4-byte descriptor; the bank byte
    at offset 3 selects the bank. -/
def do_selmemory (w : World) : World :=
  let desc_addr := pair16 w.regs.bc
  let bank := fetch_mem w (desc_addr + 3)
  do_ret { w with bank := bank }

/-- `XIOS::do_polldevice`: C = device; 0 = printer (ready), 1-4 = console
    output (ready), 5-8 = console input (ready iff status nonzero). -/
def do_polldevice (w : World) : World :=
  let device := lowByte w.regs.bc
  let result :=
    if device = 0 then 0xFF
    else if 1 ≤ device ∧ device ≤ 4 then 0xFF
    else if 5 ≤ device ∧ device ≤ 8 then
      match w.consoles (device - 5) with
      | some con => if const_status con ≠ 0 then 0xFF else 0x00
      | none => 0x00
    else 0x00
  do_ret { w with regs := { w.regs with a := result } }

def do_startclock (w : World) : World :=
  do_ret { w with tick_enabled := true }

def do_stopclock (w : World) : World :=
  do_ret { w with tick_enabled := false }

/-- `XIOS::do_exitregion`: enable interrupts only when not preempted. -/
def do_exitregion (w : World) : World :=
  if !w.preempted then
    do_ret { w with regs := { w.regs with iff1 := 1, iff2 := 1 } }
  else
    do_ret w

def do_maxconsole (w : World) : World :=
  do_ret { w with regs := { w.regs with a := MAX_CONSOLES } }

/-- `XIOS::do_systeminit`: initializes the console registry.
    Modelled from the spec for the missing `ConsoleManager::init`:
    establishes the configured console set. -/
def do_systeminit (w : World) : World :=
  do_ret { w with consoles := fun i =>
    if i < MAX_CONSOLES then some { inbuf := [], outbuf := [] } else none }

def do_idle (w : World) : World := do_ret w

/-- The `switch (offset)` of `XIOS::handle_call`: the handler registered
    for an offset, `none` for an unknown entry (the default case). -/
def xios_handler (offset : Nat) : Option (World → World) :=
  if offset = XIOS_BOOT then some do_boot
  else if offset = XIOS_WBOOT then some do_wboot
  else if offset = XIOS_CONST then some do_const
  else if offset = XIOS_CONIN then some do_conin
  else if offset = XIOS_CONOUT then some do_conout
  else if offset = XIOS_LIST then some do_list
  else if offset = XIOS_PUNCH then some do_punch
  else if offset = XIOS_READER then some do_reader
  else if offset = XIOS_HOME then some do_home
  else if offset = XIOS_SELDSK then some do_seldsk
  else if offset = XIOS_SETTRK then some do_settrk
  else if offset = XIOS_SETSEC then some do_setsec
  else if offset = XIOS_SETDMA then some do_setdma
  else if offset = XIOS_READ then some do_read
  else if offset = XIOS_WRITE then some do_write
  else if offset = XIOS_LISTST then some do_listst
  else if offset = XIOS_SECTRAN then some do_sectran
  else if offset = XIOS_SELMEMORY then some do_selmemory
  else if offset = XIOS_POLLDEVICE then some do_polldevice
  else if offset = XIOS_STARTCLOCK then some do_startclock
  else if offset = XIOS_STOPCLOCK then some do_stopclock
  else if offset = XIOS_EXITREGION then some do_exitregion
  else if offset = XIOS_MAXCONSOLE then some do_maxconsole
  else if offset = XIOS_SYSTEMINIT then some do_systeminit
  else if offset = XIOS_IDLE then some do_idle
  else none

/-- The offset computation in `XIOS::handle_call`. -/
def call_offset (w : World) (pc : Nat) : Nat :=
  if w.xios_base ≤ pc then pc - w.xios_base else pc - w.ldrbios_base

/-- `XIOS::handle_call`: decline when not a trap; decline the LDRBIOS
    SELDSK slot (native code must answer it); decline an unknown entry;
    otherwise run the handler for the offset and report handled. -/
def handle_call (w : World) : Bool × World :=
  if !is_xios_call w w.regs.pc then (false, w)
  else if w.regs.pc < w.xios_base ∧ call_offset w w.regs.pc = XIOS_SELDSK then (false, w)
  else
    match xios_handler (call_offset w w.regs.pc) with
    | some h => (true, h w)
    | none => (false, w)

/-- The little-endian word popped by the synthetic return of a handler
    entered at world `w`. -/
def retWord (w : World) : Nat :=
  (fetch_mem w (w.regs.sp + 1) * 256 + fetch_mem w w.regs.sp) % 65536

/-- What the synthetic return guarantees relative to the entry world. -/
def RetSpec (w' w : World) : Prop :=
  w'.regs.sp = (w.regs.sp + 2) % 65536 ∧ w'.regs.pc = retWord w

/-- A concrete base world (default construction of `XIOS` in `xios.cpp`,
    trapped at the BOOT slot, with a small stack in memory). -/
def baseWorld : World :=
  { regs := { a := 0, bc := 0, de := 0, hl := 0, sp := 0x0100, pc := 0xFC00,
              iff1 := 0, iff2 := 0 }
    mem := fun a => if a = 0x0100 then 0x34 else if a = 0x0101 then 0x12 else 0
    bank := 0
    consoles := fun _ => none
    disk := { accept := fun _ => false, read_result := fun _ _ _ => 0,
              write_result := fun _ _ _ => 0, selected := 0, track := 0,
              sector := 0, dma := 0, last_read_args := none,
              last_write_args := none }
    xios_base := 0xFC00
    ldrbios_base := 0x1700
    bdos_stub := 0x0D06
    current_disk := 0
    current_track := 0
    current_sector := 0
    dma_addr := 0x0080
    tick_enabled := false
    preempted := false }

/-- A guest call to one of the three disk-staging entry points: the
    guest loads BC with the value and calls the slot. -/
inductive DiskSetOp where
  | trk (v : Nat)
  | sec (v : Nat)
  | dmaOp (v : Nat)
deriving Repr, DecidableEq

/-- Load BC (as `set_pair16` would) before a staging call. -/
def setBC (w : World) (v : Nat) : World :=
  { w with regs := { w.regs with bc := pair16 v } }

/-- Perform one staging call. -/
def applyDiskSetOp (w : World) : DiskSetOp → World
  | .trk v => do_settrk (setBC w v)
  | .sec v => do_setsec (setBC w v)
  | .dmaOp v => do_setdma (setBC w v)

/-- Perform a sequence of staging calls, in order. -/
def runDiskSetOps (w : World) (l : List DiskSetOp) : World :=
  l.foldl applyDiskSetOp w

/-- The last track value written by the sequence, if any. -/
def lastTrk : List DiskSetOp → Option Nat
  | [] => none
  | op :: rest =>
    match lastTrk rest with
    | some t => some t
    | none => match op with | .trk v => some (pair16 v) | _ => none

/-- The last sector value written by the sequence, if any. -/
def lastSec : List DiskSetOp → Option Nat
  | [] => none
  | op :: rest =>
    match lastSec rest with
    | some t => some t
    | none => match op with | .sec v => some (pair16 v) | _ => none

/-- The last DMA address written by the sequence, if any. -/
def lastDmaA : List DiskSetOp → Option Nat
  | [] => none
  | op :: rest =>
    match lastDmaA rest with
    | some t => some t
    | none => match op with | .dmaOp v => some (pair16 v) | _ => none

/-- The function-9 print loop of `XIOS::do_bdos`: read a guest byte,
    stop on the terminator byte 36 (ASCII dollar sign), otherwise write it
    to console 0 and continue, for at most `fuel` iterations (1000 in the
    source, the safety limit). Returns the updated console and the number
    of guest bytes read. The bounded fuel makes the loop total by
    construction. -/
def print_loop (w : World) : Nat → Nat → ConsoleSt → ConsoleSt × Nat
  | 0, _, c => (c, 0)
  | fuel + 1, addr, c =>
    if fetch_mem w addr = 36 then (c, 1)
    else
      ((print_loop w fuel (addr + 1) (write_char c (fetch_mem w addr))).1,
       (print_loop w fuel (addr + 1) (write_char c (fetch_mem w addr))).2 + 1)

/-- `XIOS::do_bdos`: the minimal boot-phase BDOS keyed on the function
    number in C with parameter DE; every path ends with the synthetic
    return. (The `std::cerr` debug print touches only the host and is not
    guest-visible state.) -/
def do_bdos (w : World) : World :=
  do_ret (
    if lowByte w.regs.bc = 0 then w
    else if lowByte w.regs.bc = 1 then
      match w.consoles 0 with
      | some con =>
          setConsole
            { w with regs := { w.regs with a := (read_char con).1 % 256 } }
            0 (write_char (read_char con).2 ((read_char con).1 % 256))
      | none => { w with regs := { w.regs with a := 0x1A } }
    else if lowByte w.regs.bc = 2 then
      match w.consoles 0 with
      | some con => setConsole w 0 (write_char con (lowByte w.regs.de))
      | none => w
    else if lowByte w.regs.bc = 6 then
      if lowByte w.regs.de = 0xFF then
        match w.consoles 0 with
        | some con =>
            if const_status con ≠ 0 then
              setConsole
                { w with regs := { w.regs with a := (read_char con).1 % 256 } }
                0 (read_char con).2
            else { w with regs := { w.regs with a := 0 } }
        | none => { w with regs := { w.regs with a := 0 } }
      else
        match w.consoles 0 with
        | some con => setConsole w 0 (write_char con (lowByte w.regs.de))
        | none => w
    else if lowByte w.regs.bc = 9 then
      match w.consoles 0 with
      | some con =>
          setConsole w 0 (print_loop w 1000 (pair16 w.regs.de) con).1
      | none => w
    else if lowByte w.regs.bc = 11 then
      match w.consoles 0 with
      | some con =>
          { w with regs := { w.regs with
              a := if const_status con ≠ 0 then 0xFF else 0x00 } }
      | none => { w with regs := { w.regs with a := 0x00 } }
    else if lowByte w.regs.bc = 12 then
      { w with regs := { w.regs with hl := 0x0021, a := 0x21 } }
    else if lowByte w.regs.bc = 13 then
      { w with disk := (dsSelect w.disk 0).2, current_disk := 0 }
    else if lowByte w.regs.bc = 14 then
      { w with current_disk := pair16 w.regs.de % 16,
               disk := (dsSelect w.disk (pair16 w.regs.de % 16)).2,
               regs := { w.regs with a := 0 } }
    else if lowByte w.regs.bc = 15 then
      { w with regs := { w.regs with a := 0xFF } }
    else if lowByte w.regs.bc = 20 then
      { w with regs := { w.regs with a := 1 } }
    else if lowByte w.regs.bc = 26 then
      { w with dma_addr := pair16 w.regs.de }
    else w)

/-- The bytes function 9 prints starting at `addr`: the guest bytes in
    address order up to (excluding) the first terminator among the first
    1000. -/
def printedBytes (w : World) (addr : Nat) : List Nat :=
  List.takeWhile (fun b => decide (b ≠ 36))
    ((List.range 1000).map (fun i => fetch_mem w (addr + i)))

/-!
`ConsoleQueue<CAPACITY>` from `console_queue.h`, modelled as the list of
queued bytes (front = next byte out) with the capacity as a parameter.
The host-side locking and condition variables serialize the operations;
the model is the per-operation effect on the queue contents. For the
blocking `read`/`write`, the state effect modelled is: the operation
completes immediately when data/space is available, and otherwise (no
other thread supplying progress within this sequential model) leaves the
queue untouched, which is also the timeout path of the source.
-/

/-- `ConsoleQueue::available()`. -/
def q_available (q : List Nat) : Nat := q.length

/-- `ConsoleQueue::space()`. -/
def q_space (cap : Nat) (q : List Nat) : Nat := cap - q.length

/-- `ConsoleQueue::try_read`: take the front byte, or fail on empty. -/
def q_try_read (q : List Nat) : Option Nat × List Nat :=
  match q with
  | [] => (none, [])
  | x :: xs => (some x, xs)

/-- `ConsoleQueue::try_write`: append when below capacity, else fail
    with the queue untouched. -/
def q_try_write (cap : Nat) (q : List Nat) (b : Nat) : Bool × List Nat :=
  if q.length < cap then (true, q ++ [b]) else (false, q)

/-- `ConsoleQueue::write_some`: append as many of the given bytes as fit. -/
def q_write_some (cap : Nat) (q : List Nat) (bs : List Nat) : List Nat :=
  q ++ bs.take (cap - q.length)

/-- `ConsoleQueue::read_some`: remove up to `n` bytes from the front. -/
def q_read_some (q : List Nat) (n : Nat) : List Nat := q.drop n

/-- One ConsoleQueue operation (state effect on the queue contents). -/
inductive QOp where
  | tryReadOp
  | readOp
  | tryWriteOp (b : Nat)
  | writeOp (b : Nat)
  | writeSomeOp (bs : List Nat)
  | readSomeOp (n : Nat)
  | clearOp
deriving Repr, DecidableEq

/-- The queue contents after one operation. -/
def q_step (cap : Nat) (q : List Nat) : QOp → List Nat
  | .tryReadOp => (q_try_read q).2
  | .readOp => (q_try_read q).2
  | .tryWriteOp b => (q_try_write cap q b).2
  | .writeOp b => (q_try_write cap q b).2
  | .writeSomeOp bs => q_write_some cap q bs
  | .readSomeOp n => q_read_some q n
  | .clearOp => []

/-- The queue contents after a sequence of operations, starting from the
    empty queue of the freshly constructed ConsoleQueue. -/
def q_run (cap : Nat) (ops : List QOp) : List Nat :=
  ops.foldl (q_step cap) []

/-- Issue a sequence of `try_write` calls, collecting each call's
    success flag and the final queue contents. -/
def q_write_seq (cap : Nat) (q : List Nat) : List Nat → List Bool × List Nat
  | [] => ([], q)
  | b :: bs =>
    ((q_try_write cap q b).1 :: (q_write_seq cap (q_try_write cap q b).2 bs).1,
     (q_write_seq cap (q_try_write cap q b).2 bs).2)

/-- Issue up to `n` `try_read` calls, collecting the bytes returned until
    the queue reports empty. -/
def q_read_seq : Nat → List Nat → List Nat
  | 0, _ => []
  | n + 1, q =>
    match q_try_read q with
    | (none, _) => []
    | (some x, q') => x :: q_read_seq n q'

/-- C1: `is_xios_call` returns true exactly on the valid slots of the two
    windows, and in particular is false at the loader's internal BDOS
    entry. Stated for any configuration in which the LDRBIOS window lies
    below the XIOS base (as in the deployed layout, 0x1700 vs 0xFC00)
    and the BDOS stub lies below the LDRBIOS window (0x0D06). -/
theorem is_xios_call_iff (w : World)
    (hdisj : w.ldrbios_base + 0x100 ≤ w.xios_base)
    (hstub : w.bdos_stub < w.ldrbios_base) :
    (∀ pc : Nat, pc < 65536 →
      (is_xios_call w pc = true ↔
        (w.xios_base ≤ pc ∧ pc < w.xios_base + 0x100 ∧
          (pc - w.xios_base) % 3 = 0 ∧ pc - w.xios_base ≤ 0x48) ∨
        (w.ldrbios_base ≤ pc ∧ pc < w.ldrbios_base + 0x100 ∧
          (pc - w.ldrbios_base) % 3 = 0 ∧ pc - w.ldrbios_base ≤ 0x30)))
    ∧ is_xios_call w w.bdos_stub = false := by
  have key : ∀ pc : Nat,
      (is_xios_call w pc = true ↔
        (w.xios_base ≤ pc ∧ pc < w.xios_base + 0x100 ∧
          (pc - w.xios_base) % 3 = 0 ∧ pc - w.xios_base ≤ 0x48) ∨
        (w.ldrbios_base ≤ pc ∧ pc < w.ldrbios_base + 0x100 ∧
          (pc - w.ldrbios_base) % 3 = 0 ∧ pc - w.ldrbios_base ≤ 0x30)) := by
    intro pc
    unfold is_xios_call XIOS_IDLE XIOS_SECTRAN
    split_ifs with hx hl
    · simp only [decide_eq_true_eq]
      omega
    · simp only [decide_eq_true_eq]
      omega
    · simp only [Bool.false_eq_true, false_iff]
      omega
  refine ⟨fun pc _ => key pc, ?_⟩
  cases hb : is_xios_call w w.bdos_stub with
  | false => rfl
  | true =>
    exfalso
    have h := (key w.bdos_stub).mp hb
    omega

theorem do_ret_spec (w₀ w : World) (hmem : w₀.mem = w.mem)
    (hsp : w₀.regs.sp = w.regs.sp) : RetSpec (do_ret w₀) w := by
  unfold RetSpec do_ret retWord fetch_mem
  simp [hmem, hsp]

theorem retSpec_do_boot (w : World) : RetSpec (do_boot w) w :=
  do_ret_spec w w rfl rfl

theorem retSpec_do_wboot (w : World) : RetSpec (do_wboot w) w :=
  do_ret_spec w w rfl rfl

theorem retSpec_do_const (w : World) : RetSpec (do_const w) w := by
  unfold do_const
  split
  all_goals exact do_ret_spec _ w rfl rfl

theorem retSpec_do_conin (w : World) : RetSpec (do_conin w) w := by
  unfold do_conin
  split
  all_goals exact do_ret_spec _ w rfl rfl

theorem retSpec_do_conout (w : World) : RetSpec (do_conout w) w := by
  unfold do_conout
  split
  all_goals exact do_ret_spec _ w rfl rfl

theorem retSpec_do_list (w : World) : RetSpec (do_list w) w :=
  do_ret_spec w w rfl rfl

theorem retSpec_do_punch (w : World) : RetSpec (do_punch w) w :=
  do_ret_spec w w rfl rfl

theorem retSpec_do_reader (w : World) : RetSpec (do_reader w) w :=
  do_ret_spec _ w rfl rfl

theorem retSpec_do_listst (w : World) : RetSpec (do_listst w) w :=
  do_ret_spec _ w rfl rfl

theorem retSpec_do_home (w : World) : RetSpec (do_home w) w :=
  do_ret_spec _ w rfl rfl

theorem retSpec_do_seldsk (w : World) : RetSpec (do_seldsk w) w := by
  unfold do_seldsk
  split
  all_goals exact do_ret_spec _ w rfl rfl

theorem retSpec_do_settrk (w : World) : RetSpec (do_settrk w) w :=
  do_ret_spec _ w rfl rfl

theorem retSpec_do_setsec (w : World) : RetSpec (do_setsec w) w :=
  do_ret_spec _ w rfl rfl

theorem retSpec_do_setdma (w : World) : RetSpec (do_setdma w) w :=
  do_ret_spec _ w rfl rfl

theorem retSpec_do_read (w : World) : RetSpec (do_read w) w :=
  do_ret_spec _ w rfl rfl

theorem retSpec_do_write (w : World) : RetSpec (do_write w) w :=
  do_ret_spec _ w rfl rfl

theorem retSpec_do_sectran (w : World) : RetSpec (do_sectran w) w :=
  do_ret_spec _ w rfl rfl

theorem retSpec_do_selmemory (w : World) : RetSpec (do_selmemory w) w :=
  do_ret_spec _ w rfl rfl

theorem retSpec_do_polldevice (w : World) : RetSpec (do_polldevice w) w :=
  do_ret_spec _ w rfl rfl

theorem retSpec_do_startclock (w : World) : RetSpec (do_startclock w) w :=
  do_ret_spec _ w rfl rfl

theorem retSpec_do_stopclock (w : World) : RetSpec (do_stopclock w) w :=
  do_ret_spec _ w rfl rfl

theorem retSpec_do_exitregion (w : World) : RetSpec (do_exitregion w) w := by
  unfold do_exitregion
  split
  all_goals exact do_ret_spec _ w rfl rfl

theorem retSpec_do_maxconsole (w : World) : RetSpec (do_maxconsole w) w :=
  do_ret_spec _ w rfl rfl

theorem retSpec_do_systeminit (w : World) : RetSpec (do_systeminit w) w :=
  do_ret_spec _ w rfl rfl

theorem retSpec_do_idle (w : World) : RetSpec (do_idle w) w :=
  do_ret_spec w w rfl rfl

/-- Every handler the dispatch table can select performs the synthetic
    return. -/
theorem xios_handler_retSpec (offset : Nat) (h : World → World)
    (hh : xios_handler offset = some h) : ∀ w : World, RetSpec (h w) w := by
  unfold xios_handler at hh
  by_cases hc0 : offset = XIOS_BOOT
  · rw [if_pos hc0] at hh; injection hh with e; subst e; exact retSpec_do_boot
  rw [if_neg hc0] at hh
  by_cases hc1 : offset = XIOS_WBOOT
  · rw [if_pos hc1] at hh; injection hh with e; subst e; exact retSpec_do_wboot
  rw [if_neg hc1] at hh
  by_cases hc2 : offset = XIOS_CONST
  · rw [if_pos hc2] at hh; injection hh with e; subst e; exact retSpec_do_const
  rw [if_neg hc2] at hh
  by_cases hc3 : offset = XIOS_CONIN
  · rw [if_pos hc3] at hh; injection hh with e; subst e; exact retSpec_do_conin
  rw [if_neg hc3] at hh
  by_cases hc4 : offset = XIOS_CONOUT
  · rw [if_pos hc4] at hh; injection hh with e; subst e; exact retSpec_do_conout
  rw [if_neg hc4] at hh
  by_cases hc5 : offset = XIOS_LIST
  · rw [if_pos hc5] at hh; injection hh with e; subst e; exact retSpec_do_list
  rw [if_neg hc5] at hh
  by_cases hc6 : offset = XIOS_PUNCH
  · rw [if_pos hc6] at hh; injection hh with e; subst e; exact retSpec_do_punch
  rw [if_neg hc6] at hh
  by_cases hc7 : offset = XIOS_READER
  · rw [if_pos hc7] at hh; injection hh with e; subst e; exact retSpec_do_reader
  rw [if_neg hc7] at hh
  by_cases hc8 : offset = XIOS_HOME
  · rw [if_pos hc8] at hh; injection hh with e; subst e; exact retSpec_do_home
  rw [if_neg hc8] at hh
  by_cases hc9 : offset = XIOS_SELDSK
  · rw [if_pos hc9] at hh; injection hh with e; subst e; exact retSpec_do_seldsk
  rw [if_neg hc9] at hh
  by_cases hc10 : offset = XIOS_SETTRK
  · rw [if_pos hc10] at hh; injection hh with e; subst e; exact retSpec_do_settrk
  rw [if_neg hc10] at hh
  by_cases hc11 : offset = XIOS_SETSEC
  · rw [if_pos hc11] at hh; injection hh with e; subst e; exact retSpec_do_setsec
  rw [if_neg hc11] at hh
  by_cases hc12 : offset = XIOS_SETDMA
  · rw [if_pos hc12] at hh; injection hh with e; subst e; exact retSpec_do_setdma
  rw [if_neg hc12] at hh
  by_cases hc13 : offset = XIOS_READ
  · rw [if_pos hc13] at hh; injection hh with e; subst e; exact retSpec_do_read
  rw [if_neg hc13] at hh
  by_cases hc14 : offset = XIOS_WRITE
  · rw [if_pos hc14] at hh; injection hh with e; subst e; exact retSpec_do_write
  rw [if_neg hc14] at hh
  by_cases hc15 : offset = XIOS_LISTST
  · rw [if_pos hc15] at hh; injection hh with e; subst e; exact retSpec_do_listst
  rw [if_neg hc15] at hh
  by_cases hc16 : offset = XIOS_SECTRAN
  · rw [if_pos hc16] at hh; injection hh with e; subst e; exact retSpec_do_sectran
  rw [if_neg hc16] at hh
  by_cases hc17 : offset = XIOS_SELMEMORY
  · rw [if_pos hc17] at hh; injection hh with e; subst e; exact retSpec_do_selmemory
  rw [if_neg hc17] at hh
  by_cases hc18 : offset = XIOS_POLLDEVICE
  · rw [if_pos hc18] at hh; injection hh with e; subst e; exact retSpec_do_polldevice
  rw [if_neg hc18] at hh
  by_cases hc19 : offset = XIOS_STARTCLOCK
  · rw [if_pos hc19] at hh; injection hh with e; subst e; exact retSpec_do_startclock
  rw [if_neg hc19] at hh
  by_cases hc20 : offset = XIOS_STOPCLOCK
  · rw [if_pos hc20] at hh; injection hh with e; subst e; exact retSpec_do_stopclock
  rw [if_neg hc20] at hh
  by_cases hc21 : offset = XIOS_EXITREGION
  · rw [if_pos hc21] at hh; injection hh with e; subst e; exact retSpec_do_exitregion
  rw [if_neg hc21] at hh
  by_cases hc22 : offset = XIOS_MAXCONSOLE
  · rw [if_pos hc22] at hh; injection hh with e; subst e; exact retSpec_do_maxconsole
  rw [if_neg hc22] at hh
  by_cases hc23 : offset = XIOS_SYSTEMINIT
  · rw [if_pos hc23] at hh; injection hh with e; subst e; exact retSpec_do_systeminit
  rw [if_neg hc23] at hh
  by_cases hc24 : offset = XIOS_IDLE
  · rw [if_pos hc24] at hh; injection hh with e; subst e; exact retSpec_do_idle
  rw [if_neg hc24] at hh
  exact Option.noConfusion hh

/-- C2: every call `handle_call` reports handled ends with the synthetic
    return: PC is the little-endian word at the entry SP and SP has
    advanced by exactly 2 (mod 2^16). -/
theorem handle_call_ret (w : World) (h : (handle_call w).1 = true) :
    (handle_call w).2.regs.sp = (w.regs.sp + 2) % 65536 ∧
    (handle_call w).2.regs.pc = retWord w := by
  unfold handle_call at h ⊢
  split_ifs at h ⊢ with h1 h2
  cases hh : xios_handler (call_offset w w.regs.pc) with
  | some hd =>
      simp only [hh]
      exact xios_handler_retSpec _ hd hh w
  | none =>
      rw [hh] at h
      exact absurd h (by simp)

theorem handle_call_ret_witness :
    (handle_call baseWorld).1 = true ∧
      ((handle_call baseWorld).2.regs.sp = (baseWorld.regs.sp + 2) % 65536 ∧
       (handle_call baseWorld).2.regs.pc = retWord baseWorld) :=
  ⟨by decide, handle_call_ret baseWorld (by decide)⟩

/-- C3: `handle_call` declines — returns false with the whole world
    untouched — exactly when the pc is not a trap, or the matched slot
    has no registered handler, or the LDRBIOS SELDSK slot matched; every
    other trap is handled (returns true). -/
theorem handle_call_decline_iff (w : World) :
    ((handle_call w).1 = false ↔
      (is_xios_call w w.regs.pc = false ∨
       (is_xios_call w w.regs.pc = true ∧
         xios_handler (call_offset w w.regs.pc) = none) ∨
       (is_xios_call w w.regs.pc = true ∧ w.regs.pc < w.xios_base ∧
         call_offset w w.regs.pc = XIOS_SELDSK)))
    ∧ ((handle_call w).1 = false → (handle_call w).2 = w) := by
  unfold handle_call
  split_ifs with h1 h2
  · rw [Bool.not_eq_true'] at h1
    exact ⟨by simp [h1], fun _ => rfl⟩
  · replace h1 := Bool.eq_true_of_not_eq_false' (by simpa using h1)
    exact ⟨by simp [h1, h2.1, h2.2], fun _ => rfl⟩
  · replace h1 := Bool.eq_true_of_not_eq_false' (by simpa using h1)
    cases hh : xios_handler (call_offset w w.regs.pc) with
    | some hd =>
        constructor
        · simp only [Bool.true_eq_false, false_iff]
          push_neg
          refine ⟨by simp [h1], fun _ => by simp [hh], fun _ hlt => ?_⟩
          intro heq
          exact h2 ⟨hlt, heq⟩
        · intro hfalse
          exact absurd hfalse (by simp)
    | none =>
        exact ⟨by simp [h1, hh], fun _ => rfl⟩

/-- C3 witness: a pc outside both windows is declined with no effect. -/
theorem handle_call_decline_witness :
    (handle_call { baseWorld with
        regs := { baseWorld.regs with pc := 0x2000 } }).1 = false ∧
    (handle_call { baseWorld with
        regs := { baseWorld.regs with pc := 0x2000 } }).2 =
      { baseWorld with regs := { baseWorld.regs with pc := 0x2000 } } :=
  ⟨by decide,
   (handle_call_decline_iff { baseWorld with
      regs := { baseWorld.regs with pc := 0x2000 } }).2 (by decide)⟩

/-- C4 counterexample: with the default XIOS base 0xFC00 and an engine
    that accepts disk 48, `do_seldsk` returns in HL the 16-bit truncation
    of 0x10000, i.e. 0 (the error sentinel!), not
    `xios_base + 0x100 + 16*48 = 0x10000`. -/
theorem do_seldsk_hl_truncates :
    ((do_seldsk { baseWorld with
        disk := { baseWorld.disk with accept := fun _ => true },
        regs := { baseWorld.regs with bc := 48 } }).regs.hl = 0) ∧
    (0 : Nat) ≠ 0xFC00 + 0x100 + 16 * 48 := by
  constructor
  · decide
  · decide

/-- C4 (amended): on rejection `do_seldsk` returns HL = 0 and leaves the
    latched `current_disk` unchanged; on acceptance of disk N it latches
    `current_disk := N` and returns in HL `(xios_base + 0x100 + 16*N)`
    truncated to 16 bits — equal to the untruncated DPH address whenever
    that value fits in 16 bits. -/
theorem do_seldsk_spec (w : World) :
    (w.disk.accept (lowByte w.regs.bc) = false →
      (do_seldsk w).regs.hl = 0 ∧
      (do_seldsk w).current_disk = w.current_disk) ∧
    (w.disk.accept (lowByte w.regs.bc) = true →
      (do_seldsk w).current_disk = lowByte w.regs.bc ∧
      (do_seldsk w).regs.hl =
        (w.xios_base + 0x100 + lowByte w.regs.bc * 16) % 65536) := by
  constructor
  · intro hrej
    unfold do_seldsk dsSelect do_ret
    simp [hrej]
  · intro hacc
    unfold do_seldsk dsSelect do_ret
    simp [hacc]

/-- C4 witness: rejection of disk 2 leaves HL = 0 and current_disk
    untouched; acceptance of disk 3 latches it and returns the DPH
    address 0xFD30. -/
theorem do_seldsk_spec_witness :
    (baseWorld.disk.accept
        (lowByte { baseWorld with
          regs := { baseWorld.regs with bc := 2 } }.regs.bc) = false ∧
      (do_seldsk { baseWorld with
          regs := { baseWorld.regs with bc := 2 } }).regs.hl = 0 ∧
      (do_seldsk { baseWorld with
          regs := { baseWorld.regs with bc := 2 } }).current_disk =
        { baseWorld with
          regs := { baseWorld.regs with bc := 2 } }.current_disk) ∧
    ((do_seldsk { baseWorld with
        disk := { baseWorld.disk with accept := fun _ => true },
        regs := { baseWorld.regs with bc := 3 } }).current_disk = 3 ∧
      (do_seldsk { baseWorld with
        disk := { baseWorld.disk with accept := fun _ => true },
        regs := { baseWorld.regs with bc := 3 } }).regs.hl = 0xFD30) :=
  ⟨⟨by decide,
    (do_seldsk_spec { baseWorld with
        regs := { baseWorld.regs with bc := 2 } }).1 (by decide)⟩,
   (do_seldsk_spec { baseWorld with
      disk := { baseWorld.disk with accept := fun _ => true },
      regs := { baseWorld.regs with bc := 3 } }).2 (by decide)⟩

/-- C8: `do_exitregion` sets both interrupt-enable flip-flops to 1 when
    `preempted` is false at call time, and leaves both exactly as they
    were when `preempted` is true. -/
theorem do_exitregion_spec (w : World) :
    (w.preempted = false →
      (do_exitregion w).regs.iff1 = 1 ∧ (do_exitregion w).regs.iff2 = 1) ∧
    (w.preempted = true →
      (do_exitregion w).regs.iff1 = w.regs.iff1 ∧
      (do_exitregion w).regs.iff2 = w.regs.iff2) := by
  constructor
  · intro hp
    unfold do_exitregion do_ret
    simp [hp]
  · intro hp
    unfold do_exitregion do_ret
    simp [hp]

/-- C8 witness: with `preempted` false the flip-flops end up enabled;
    with `preempted` true they keep their entry values. -/
theorem do_exitregion_spec_witness :
    (baseWorld.preempted = false ∧
      (do_exitregion baseWorld).regs.iff1 = 1 ∧
      (do_exitregion baseWorld).regs.iff2 = 1) ∧
    ({ baseWorld with preempted := true }.preempted = true ∧
      (do_exitregion { baseWorld with preempted := true }).regs.iff1 =
        { baseWorld with preempted := true }.regs.iff1 ∧
      (do_exitregion { baseWorld with preempted := true }).regs.iff2 =
        { baseWorld with preempted := true }.regs.iff2) :=
  ⟨⟨by decide, (do_exitregion_spec baseWorld).1 (by decide)⟩,
   ⟨by decide, (do_exitregion_spec { baseWorld with preempted := true }).2
      (by decide)⟩⟩

theorem runDiskSetOps_latch (l : List DiskSetOp) : ∀ w : World,
    (runDiskSetOps w l).current_track = (lastTrk l).getD w.current_track ∧
    (runDiskSetOps w l).current_sector = (lastSec l).getD w.current_sector ∧
    (runDiskSetOps w l).dma_addr = (lastDmaA l).getD w.dma_addr := by
  induction l with
  | nil => intro w; exact ⟨rfl, rfl, rfl⟩
  | cons op rest ih =>
    intro w
    obtain ⟨iht, ihs, ihd⟩ := ih (applyDiskSetOp w op)
    have hrun : runDiskSetOps w (op :: rest) =
        runDiskSetOps (applyDiskSetOp w op) rest := rfl
    refine ⟨?_, ?_, ?_⟩
    · rw [hrun, iht]
      cases hlt : lastTrk rest with
      | some t => simp [lastTrk, hlt]
      | none =>
        cases op with
        | trk v => simp [lastTrk, hlt, applyDiskSetOp, do_settrk, do_ret, setBC, pair16]
        | sec v => simp [lastTrk, hlt, applyDiskSetOp, do_setsec, do_ret, setBC]
        | dmaOp v => simp [lastTrk, hlt, applyDiskSetOp, do_setdma, do_ret, setBC]
    · rw [hrun, ihs]
      cases hls : lastSec rest with
      | some t => simp [lastSec, hls]
      | none =>
        cases op with
        | trk v => simp [lastSec, hls, applyDiskSetOp, do_settrk, do_ret, setBC]
        | sec v => simp [lastSec, hls, applyDiskSetOp, do_setsec, do_ret, setBC, pair16]
        | dmaOp v => simp [lastSec, hls, applyDiskSetOp, do_setdma, do_ret, setBC]
    · rw [hrun, ihd]
      cases hld : lastDmaA rest with
      | some t => simp [lastDmaA, hld]
      | none =>
        cases op with
        | trk v => simp [lastDmaA, hld, applyDiskSetOp, do_settrk, do_ret, setBC]
        | sec v => simp [lastDmaA, hld, applyDiskSetOp, do_setsec, do_ret, setBC]
        | dmaOp v => simp [lastDmaA, hld, applyDiskSetOp, do_setdma, do_ret, setBC, pair16]

/-- C5: any sequence of set-track/set-sector/set-dma calls whose last
    writes are T, S, D, followed by the read handler, presents exactly
    T, S, D to the disk engine at the moment its transfer is invoked
    (last-write-wins per field, any order). -/
theorem do_read_presents_latched (w : World) (l : List DiskSetOp)
    (T S D : Nat) (ht : lastTrk l = some T) (hs : lastSec l = some S)
    (hd : lastDmaA l = some D) :
    (do_read (runDiskSetOps w l)).disk.track = T ∧
    (do_read (runDiskSetOps w l)).disk.sector = S ∧
    (do_read (runDiskSetOps w l)).disk.dma = D ∧
    (do_read (runDiskSetOps w l)).disk.last_read_args = some (T, S, D) := by
  obtain ⟨h1, h2, h3⟩ := runDiskSetOps_latch l w
  rw [ht] at h1
  rw [hs] at h2
  rw [hd] at h3
  simp only [Option.getD_some] at h1 h2 h3
  unfold do_read do_ret
  simp [h1, h2, h3]

/-- C5 witness: the sequence sector:=7, track:=5, track:=11, dma:=9
    followed by read presents (11, 7, 9). -/
theorem do_read_presents_latched_witness :
    lastTrk [DiskSetOp.sec 7, DiskSetOp.trk 5, DiskSetOp.trk 11,
      DiskSetOp.dmaOp 9] = some 11 ∧
    (do_read (runDiskSetOps baseWorld
        [DiskSetOp.sec 7, DiskSetOp.trk 5, DiskSetOp.trk 11,
         DiskSetOp.dmaOp 9])).disk.last_read_args = some (11, 7, 9) :=
  ⟨by decide,
   (do_read_presents_latched baseWorld
      [DiskSetOp.sec 7, DiskSetOp.trk 5, DiskSetOp.trk 11, DiskSetOp.dmaOp 9]
      11 7 9 (by decide) (by decide) (by decide)).2.2.2⟩

theorem print_loop_spec (w : World) : ∀ (fuel addr : Nat) (c : ConsoleSt),
    (print_loop w fuel addr c).1.inbuf = c.inbuf ∧
    (print_loop w fuel addr c).1.outbuf =
      c.outbuf ++ List.takeWhile (fun b => decide (b ≠ 36))
        ((List.range fuel).map (fun i => fetch_mem w (addr + i))) ∧
    (print_loop w fuel addr c).2 ≤ fuel := by
  intro fuel
  induction fuel with
  | zero => intro addr c; exact ⟨rfl, by simp [print_loop], Nat.le_refl 0⟩
  | succ n ih =>
    intro addr c
    by_cases hterm : fetch_mem w addr = 36
    · refine ⟨by simp [print_loop, hterm], ?_, by simp [print_loop, hterm]⟩
      rw [List.range_succ_eq_map]
      simp [print_loop, hterm]
    · obtain ⟨ih1, ih2, ih3⟩ := ih (addr + 1) (write_char c (fetch_mem w addr))
      have hstep : print_loop w (n + 1) addr c =
          ((print_loop w n (addr + 1) (write_char c (fetch_mem w addr))).1,
           (print_loop w n (addr + 1) (write_char c (fetch_mem w addr))).2 + 1) := by
        simp [print_loop, hterm]
      rw [hstep]
      refine ⟨ih1, ?_, by omega⟩
      have hmap : (List.range (n + 1)).map (fun i => fetch_mem w (addr + i)) =
          fetch_mem w addr ::
            (List.range n).map (fun i => fetch_mem w ((addr + 1) + i)) := by
        rw [List.range_succ_eq_map]
        simp only [List.map_cons, List.map_map, Nat.add_zero]
        congr 1
        apply List.map_congr_left
        intro i _
        simp only [Function.comp_apply]
        congr 1
        omega
      rw [hmap]
      have hcons : List.takeWhile (fun b => decide (b ≠ 36))
          (fetch_mem w addr ::
            (List.range n).map (fun i => fetch_mem w ((addr + 1) + i))) =
          fetch_mem w addr :: List.takeWhile (fun b => decide (b ≠ 36))
            ((List.range n).map (fun i => fetch_mem w ((addr + 1) + i))) := by
        simp [List.takeWhile, hterm]
      rw [hcons, ih2]
      simp [write_char]

/-- C9: function 9 of the boot-phase BDOS writes the guest bytes from DE
    in address order to console 0 until the terminator byte 36, and the
    loop reads at most 1000 guest bytes whatever the memory contents, so
    it terminates even when no terminator exists. -/
theorem do_bdos_print_string (w : World) (con : ConsoleSt)
    (hfunc : lowByte w.regs.bc = 9) (hcon : w.consoles 0 = some con) :
    ((do_bdos w).consoles 0 =
      some { inbuf := con.inbuf,
             outbuf := con.outbuf ++ printedBytes w (pair16 w.regs.de) }) ∧
    (∀ addr c, (print_loop w 1000 addr c).2 ≤ 1000) := by
  constructor
  · obtain ⟨h1, h2, _⟩ := print_loop_spec w 1000 (pair16 w.regs.de) con
    unfold do_bdos do_ret
    rw [hfunc]
    simp only [show (9 : Nat) ≠ 0 by decide, show (9 : Nat) ≠ 1 by decide,
      show (9 : Nat) ≠ 2 by decide, show (9 : Nat) ≠ 6 by decide,
      if_false, ite_false, ite_true, if_true, hcon]
    simp only [setConsole, if_pos rfl]
    cases hpl : (print_loop w 1000 (pair16 w.regs.de) con).1 with
    | mk ib ob =>
      rw [hpl] at h1 h2
      simp only at h1 h2
      simp [h1, h2, printedBytes]
  · intro addr c
    exact (print_loop_spec w 1000 addr c).2.2

/-- C9 witness: a concrete memory holding "HI$" at 0x0200 prints the two
    bytes 72, 73 to console 0. -/
theorem do_bdos_print_string_witness :
    lowByte { baseWorld with
      mem := fun a => if a = 0x0200 then 72 else if a = 0x0201 then 73
        else if a = 0x0202 then 36 else 36,
      consoles := fun i => if i = 0 then some { inbuf := [], outbuf := [] }
        else none,
      regs := { baseWorld.regs with bc := 9, de := 0x0200 } }.regs.bc = 9 ∧
    (do_bdos { baseWorld with
      mem := fun a => if a = 0x0200 then 72 else if a = 0x0201 then 73
        else if a = 0x0202 then 36 else 36,
      consoles := fun i => if i = 0 then some { inbuf := [], outbuf := [] }
        else none,
      regs := { baseWorld.regs with bc := 9, de := 0x0200 } }).consoles 0 =
      some { inbuf := [],
             outbuf := [] ++ printedBytes { baseWorld with
               mem := fun a => if a = 0x0200 then 72 else if a = 0x0201 then 73
                 else if a = 0x0202 then 36 else 36,
               consoles := fun i => if i = 0 then
                 some { inbuf := [], outbuf := [] } else none,
               regs := { baseWorld.regs with bc := 9, de := 0x0200 } }
               (pair16 { baseWorld with
                 mem := fun a => if a = 0x0200 then 72 else if a = 0x0201 then 73
                   else if a = 0x0202 then 36 else 36,
                 consoles := fun i => if i = 0 then
                   some { inbuf := [], outbuf := [] } else none,
                 regs := { baseWorld.regs with bc := 9, de := 0x0200 } }.regs.de) } :=
  ⟨by decide,
   (do_bdos_print_string _ { inbuf := [], outbuf := [] } (by decide) rfl).1⟩

/-- C10: function 14 of the boot-phase BDOS latches `current_disk` to the
    low 4 bits of DE and reports success (A = 0) unconditionally — even
    when the disk engine rejects the selection — unlike the full-table
    select-disk handler, which on rejection leaves `current_disk`
    unchanged and returns the HL = 0 sentinel. -/
theorem do_bdos_select_disk (w : World) (hfunc : lowByte w.regs.bc = 14) :
    (do_bdos w).current_disk = pair16 w.regs.de % 16 ∧
    (do_bdos w).regs.a = 0 ∧
    (∀ w' : World, w'.disk.accept (lowByte w'.regs.bc) = false →
      (do_seldsk w').current_disk = w'.current_disk ∧
      (do_seldsk w').regs.hl = 0) := by
  refine ⟨?_, ?_, ?_⟩
  · unfold do_bdos do_ret
    rw [hfunc]
    simp
  · unfold do_bdos do_ret
    rw [hfunc]
    simp
  · intro w' hrej
    exact ⟨((do_seldsk_spec w').1 hrej).2, ((do_seldsk_spec w').1 hrej).1⟩

/-- C10 witness: DE = 0x1234 with an all-rejecting engine still latches
    current_disk = 4 and reports A = 0. -/
theorem do_bdos_select_disk_witness :
    lowByte { baseWorld with
      regs := { baseWorld.regs with bc := 14, de := 0x1234 } }.regs.bc = 14 ∧
    (do_bdos { baseWorld with
      regs := { baseWorld.regs with bc := 14, de := 0x1234 } }).current_disk = 4 ∧
    (do_bdos { baseWorld with
      regs := { baseWorld.regs with bc := 14, de := 0x1234 } }).regs.a = 0 :=
  ⟨by decide,
   by decide,
   (do_bdos_select_disk { baseWorld with
      regs := { baseWorld.regs with bc := 14, de := 0x1234 } } (by decide)).2.1⟩

theorem q_step_le (cap : Nat) (q : List Nat) (op : QOp)
    (h : q.length ≤ cap) : (q_step cap q op).length ≤ cap := by
  cases op with
  | tryReadOp =>
    cases q with
    | nil => simp [q_step, q_try_read]
    | cons x xs => simp [q_step, q_try_read] at h ⊢; omega
  | readOp =>
    cases q with
    | nil => simp [q_step, q_try_read]
    | cons x xs => simp [q_step, q_try_read] at h ⊢; omega
  | tryWriteOp b =>
    unfold q_step q_try_write
    split_ifs with hlt
    · simp; omega
    · simpa using h
  | writeOp b =>
    unfold q_step q_try_write
    split_ifs with hlt
    · simp; omega
    · simpa using h
  | writeSomeOp bs =>
    unfold q_step q_write_some
    have := List.length_take_le (cap - q.length) bs
    simp
    omega
  | readSomeOp n =>
    unfold q_step q_read_some
    simp
    omega
  | clearOp => simp [q_step]

/-- C6: after any sequence of operations on a freshly constructed
    ConsoleQueue, the buffer holds at most `cap` bytes and
    `available() + space() = cap`. -/
theorem consoleQueue_invariant (cap : Nat) (ops : List QOp) :
    (q_run cap ops).length ≤ cap ∧
    q_available (q_run cap ops) + q_space cap (q_run cap ops) = cap := by
  have hlen : ∀ (q : List Nat), q.length ≤ cap →
      (ops.foldl (q_step cap) q).length ≤ cap := by
    induction ops with
    | nil => intro q h; simpa using h
    | cons op rest ih =>
      intro q h
      exact ih (q_step cap q op) (q_step_le cap q op h)
  have h := hlen [] (by simp)
  refine ⟨h, ?_⟩
  unfold q_available q_space q_run at *
  omega

theorem q_write_seq_all (cap : Nat) (ws : List Nat) : ∀ q : List Nat,
    q.length + ws.length ≤ cap →
    q_write_seq cap q ws = (List.replicate ws.length true, q ++ ws) := by
  induction ws with
  | nil => intro q _; simp [q_write_seq]
  | cons b bs ih =>
    intro q h
    have hlt : q.length < cap := by simp at h; omega
    have hw : q_try_write cap q b = (true, q ++ [b]) := by
      unfold q_try_write
      rw [if_pos hlt]
    have hrec := ih (q ++ [b]) (by simp at h ⊢; omega)
    unfold q_write_seq
    rw [hw]
    simp only [hrec]
    simp [List.replicate_succ]

theorem q_read_seq_drains : ∀ q : List Nat, q_read_seq q.length q = q := by
  intro q
  induction q with
  | nil => rfl
  | cons x xs ih =>
    show q_read_seq (xs.length + 1) (x :: xs) = x :: xs
    unfold q_read_seq
    simp only [q_try_read]
    rw [ih]

/-- C7: the ConsoleQueue is a FIFO — a sequence of bytes that fits into a
    fresh queue is accepted write by write (`try_write` succeeds each
    time) and is enqueued exactly in order, reading `available()` times
    returns exactly those bytes front first, and `try_write` on a full
    queue fails and leaves the contents untouched. -/
theorem consoleQueue_fifo (cap : Nat) (ws : List Nat) (q : List Nat)
    (b : Nat) (hws : ws.length ≤ cap) (hfull : cap ≤ q.length) :
    q_write_seq cap [] ws = (List.replicate ws.length true, ws) ∧
    q_read_seq ws.length ws = ws ∧
    q_try_write cap q b = (false, q) := by
  refine ⟨?_, q_read_seq_drains ws, ?_⟩
  · have := q_write_seq_all cap ws [] (by simpa using hws)
    simpa using this
  · unfold q_try_write
    rw [if_neg (by omega)]

/-- C7 witness: capacity 2, writes [10, 20] both succeed and read back in
    order; try_write on the full queue [1, 2] fails unchanged. -/
theorem consoleQueue_fifo_witness :
    ([10, 20] : List Nat).length ≤ 2 ∧ 2 ≤ ([1, 2] : List Nat).length ∧
    (q_write_seq 2 [] [10, 20] = ([true, true], [10, 20]) ∧
     q_read_seq 2 [10, 20] = [10, 20] ∧
     q_try_write 2 [1, 2] 5 = (false, [1, 2])) :=
  ⟨by decide, by decide,
   consoleQueue_fifo 2 [10, 20] [1, 2] 5 (by decide) (by decide)⟩

/-- C1 witness: the deployed layout (0x1700 LDRBIOS below 0xFC00 XIOS,
    BDOS stub 0x0D06 below both) satisfies the hypotheses, and the stub
    is not intercepted. -/
theorem is_xios_call_iff_witness :
    baseWorld.ldrbios_base + 0x100 ≤ baseWorld.xios_base ∧
    baseWorld.bdos_stub < baseWorld.ldrbios_base ∧
    is_xios_call baseWorld baseWorld.bdos_stub = false :=
  ⟨by decide, by decide,
   (is_xios_call_iff baseWorld (by decide) (by decide)).2⟩

end MPM2
